import Mathlib

/-!
Shallow embedding of the `biobb_wf_ligand_parameterization` notebook pipeline.

The repository's code is a strictly sequential Jupyter notebook in two
variants (a GROMACS variant and a CNS variant).  Each pipeline cell builds a
property dictionary, computes file-name variables from the ligand code, and
calls one external building block (`ligand`, `babel_add_hydrogens`,
`babel_minimize`, `acpype_params_gmx` / `acpype_params_cns`); the CNS acpype
cell additionally copies the minimized structure with `shutil.copyfile`.

The external tools are modelled as abstract deterministic functions gathered
in a `Tools` structure; the notebook's own orchestration (path construction,
property dictionaries, sequencing, halting on a raised error) is translated
cell by cell.  A `RunState` carries the working directory (`fs`), the ordered
list of file-creation events (`trace`) and the ordered list of building-block
invocations (`calls`), so that claims about data flow, file naming, failure
propagation and determinism can be stated and proved.
-/

namespace LigandParam

/-- Values a notebook property dictionary can hold: the notebook stores
strings (formats, method, criteria, basename), the integer net charge and
the rational pH. -/
inductive PVal where
  | str (s : String)
  | int (i : Int)
  | rat (q : Rat)
deriving DecidableEq, Repr

/-- A property dictionary, as the notebook's `prop = { ... }` literals. -/
abbrev Props := List (String × PVal)

/-- The external tools the notebook calls, modelled as deterministic
functions from their inputs to an optional output (`none` models the tool
raising an error).  `fetch` is `biobb_io.api.ligand` (keyed by the ligand
code), `addHydrogens` is OpenBabel's hydrogen addition (input content, pH,
input format, output format), `minimize` is OpenBabel's minimizer (input
content, method, criteria, force field), and the two `acpype` fields are the
ACPype parameterizers (input content, basename, net charge), returning the
contents of their three output files. -/
structure Tools where
  fetch : String → Option String
  addHydrogens : String → Rat → String → String → Option String
  minimize : String → String → String → String → Option String
  acpypeGmx : String → String → Int → Option (String × String × String)
  acpypeCns : String → String → Int → Option (String × String × String)

/-- The user-set notebook input variables (`ligandCode`, `mol_charge`, `pH`). -/
structure Config where
  ligandCode : String
  mol_charge : Int
  pH : Rat
deriving DecidableEq, Repr

/-- The notebook step a recorded invocation belongs to. -/
inductive StepName where
  | fetch
  | addH
  | minimize
  | acpypeGmx
  | acpypeCns
  | copyfile
deriving DecidableEq, Repr

/-- One recorded building-block invocation: which step it is, the
`input_path` argument it received (`none` for the fetch step, which takes a
ligand code instead), the output paths it was asked to write, and the
property dictionary it was given. -/
structure Call where
  step : StepName
  input_path : Option String
  output_paths : List String
  props : Props
deriving DecidableEq, Repr

/-- The observable state of a notebook run: the working directory as an
association list from path to content (newest write first), the ordered
trace of file-creation events, and the ordered list of invocations. -/
structure RunState where
  fs : List (String × String)
  trace : List String
  calls : List Call
deriving DecidableEq, Repr

/-- The state before any cell has run: empty directory, no events. -/
def initialState : RunState := ⟨[], [], []⟩

/-- Write a file: record the content under the path and append a creation
event to the trace. -/
def writeFile (s : RunState) (path content : String) : RunState :=
  { s with fs := (path, content) :: s.fs, trace := s.trace ++ [path] }

/-- Read a file from the working directory, `none` when absent. -/
def readFile (s : RunState) (path : String) : Option String :=
  (s.fs.find? (fun pc => pc.1 == path)).map (fun pc => pc.2)

/-- Record a building-block invocation. -/
def recordCall (s : RunState) (c : Call) : RunState :=
  { s with calls := s.calls ++ [c] }

/-- Outcome of running a cell or a whole run: normal completion, or the
state at the point where an external tool raised (notebook halted). -/
inductive Outcome where
  | ok (s : RunState)
  | failed (msg : String) (s : RunState)
deriving DecidableEq, Repr

/-- The state an outcome carries (final state, or state at the failure). -/
def Outcome.state : Outcome → RunState
  | .ok s => s
  | .failed _ s => s

/-- Sequencing of notebook cells: a raised error halts the run, so the next
cell only executes after normal completion. -/
def Outcome.andThen (o : Outcome) (f : RunState → Outcome) : Outcome :=
  match o with
  | .ok s => f s
  | .failed m s => .failed m s

/-- Notebook variable `input_structure = ligandCode + '.pdb'`. -/
def input_structure (cfg : Config) : String := cfg.ligandCode ++ ".pdb"

/-- Notebook variable `output_babel_h = ligandCode + '.H.mol2'`. -/
def output_babel_h (cfg : Config) : String := cfg.ligandCode ++ ".H.mol2"

/-- Notebook variable `output_babel_min = ligandCode + '.H.min.pdb'`. -/
def output_babel_min (cfg : Config) : String := cfg.ligandCode ++ ".H.min.pdb"

/-- Notebook variable `output_acpype = ligandCode + 'params'` (basename). -/
def output_acpype (cfg : Config) : String := cfg.ligandCode ++ "params"

/-- Notebook variable `output_acpype_gro = ligandCode + 'params.gro'`. -/
def output_acpype_gro (cfg : Config) : String := cfg.ligandCode ++ "params.gro"

/-- Notebook variable `output_acpype_itp = ligandCode + 'params.itp'`. -/
def output_acpype_itp (cfg : Config) : String := cfg.ligandCode ++ "params.itp"

/-- Notebook variable `output_acpype_top = ligandCode + 'params.top'`. -/
def output_acpype_top (cfg : Config) : String := cfg.ligandCode ++ "params.top"

/-- Notebook variable `output_acpype_inp = ligandCode + 'params.inp'` (CNS). -/
def output_acpype_inp (cfg : Config) : String := cfg.ligandCode ++ "params.inp"

/-- Notebook variable `output_acpype_par = ligandCode + 'params.par'` (CNS). -/
def output_acpype_par (cfg : Config) : String := cfg.ligandCode ++ "params.par"

/-- Notebook variable `output_acpype_pdb = ligandCode + 'params.pdb'` (CNS). -/
def output_acpype_pdb (cfg : Config) : String := cfg.ligandCode ++ "params.pdb"

/-- The invocation record of the fetch cell: `ligand(output_pdb_path =
input_structure, properties = { 'ligand_code' : ligandCode })`. -/
def fetchCall (cfg : Config) : Call :=
  ⟨.fetch, none, [input_structure cfg], [("ligand_code", .str cfg.ligandCode)]⟩

/-- The invocation record of the hydrogen-addition cell:
`babel_add_hydrogens(input_path = input_structure, output_path =
output_babel_h, properties = { 'ph', 'input_format', 'output_format' })`. -/
def addHCall (cfg : Config) : Call :=
  ⟨.addH, some (input_structure cfg), [output_babel_h cfg],
    [("ph", .rat cfg.pH), ("input_format", .str "pdb"),
      ("output_format", .str "mol2")]⟩

/-- The invocation record of the minimization cell:
`babel_minimize(input_path = output_babel_h, output_path = output_babel_min,
properties = { 'method' : 'sd', 'criteria' : '1e-10', 'force_field' :
'GAFF' })`. -/
def minimizeCall (cfg : Config) : Call :=
  ⟨.minimize, some (output_babel_h cfg), [output_babel_min cfg],
    [("method", .str "sd"), ("criteria", .str "1e-10"),
      ("force_field", .str "GAFF")]⟩

/-- The invocation record of the GROMACS parameter-generation cell. -/
def acpypeGmxCall (cfg : Config) : Call :=
  ⟨.acpypeGmx, some (output_babel_min cfg),
    [output_acpype_gro cfg, output_acpype_itp cfg, output_acpype_top cfg],
    [("basename", .str (output_acpype cfg)), ("charge", .int cfg.mol_charge)]⟩

/-- The invocation record of the CNS parameter-generation call (its three
output paths; the coordinate file `params.pdb` is not among them). -/
def acpypeCnsCall (cfg : Config) : Call :=
  ⟨.acpypeCns, some (output_babel_min cfg),
    [output_acpype_inp cfg, output_acpype_par cfg, output_acpype_top cfg],
    [("basename", .str (output_acpype cfg)), ("charge", .int cfg.mol_charge)]⟩

/-- The invocation record of `shutil.copyfile(output_babel_min,
output_acpype_pdb)` in the CNS acpype cell. -/
def copyCall (cfg : Config) : Call :=
  ⟨.copyfile, some (output_babel_min cfg), [output_acpype_pdb cfg], []⟩

/-- The fetch cell: compute `input_structure`, call the `ligand` building
block, write the fetched structure there (or halt when the fetch raises). -/
def ligand (t : Tools) (cfg : Config) (s : RunState) : Outcome :=
  let s := recordCall s (fetchCall cfg)
  match t.fetch cfg.ligandCode with
  | none => .failed "ligand" s
  | some content => .ok (writeFile s (input_structure cfg) content)

/-- The hydrogen-addition cell: read `input_structure`, call OpenBabel with
pH and the declared formats, write `output_babel_h`. -/
def babel_add_hydrogens (t : Tools) (cfg : Config) (s : RunState) : Outcome :=
  let s := recordCall s (addHCall cfg)
  match readFile s (input_structure cfg) with
  | none => .failed "babel_add_hydrogens: input_path" s
  | some content =>
    match t.addHydrogens content cfg.pH "pdb" "mol2" with
    | none => .failed "babel_add_hydrogens" s
    | some out => .ok (writeFile s (output_babel_h cfg) out)

/-- The minimization cell: read `output_babel_h`, call OpenBabel's minimizer
with method `sd`, criteria `1e-10` and force field `GAFF`, write
`output_babel_min`. -/
def babel_minimize (t : Tools) (cfg : Config) (s : RunState) : Outcome :=
  let s := recordCall s (minimizeCall cfg)
  match readFile s (output_babel_h cfg) with
  | none => .failed "babel_minimize: input_path" s
  | some content =>
    match t.minimize content "sd" "1e-10" "GAFF" with
    | none => .failed "babel_minimize" s
    | some out => .ok (writeFile s (output_babel_min cfg) out)

/-- The GROMACS parameter-generation call: read `output_babel_min`, call
ACPype with the basename and the user-supplied net charge, write the
`.gro`, `.itp` and `.top` outputs. -/
def acpype_params_gmx (t : Tools) (cfg : Config) (s : RunState) : Outcome :=
  let s := recordCall s (acpypeGmxCall cfg)
  match readFile s (output_babel_min cfg) with
  | none => .failed "acpype_params_gmx: input_path" s
  | some content =>
    match t.acpypeGmx content (output_acpype cfg) cfg.mol_charge with
    | none => .failed "acpype_params_gmx" s
    | some (gro, itp, top) =>
      .ok (writeFile (writeFile (writeFile s (output_acpype_gro cfg) gro)
            (output_acpype_itp cfg) itp) (output_acpype_top cfg) top)

/-- The CNS parameter-generation call: read `output_babel_min`, call ACPype
with the basename and the user-supplied net charge, write the `.inp`,
`.par` and `.top` outputs. -/
def acpype_params_cns (t : Tools) (cfg : Config) (s : RunState) : Outcome :=
  let s := recordCall s (acpypeCnsCall cfg)
  match readFile s (output_babel_min cfg) with
  | none => .failed "acpype_params_cns: input_path" s
  | some content =>
    match t.acpypeCns content (output_acpype cfg) cfg.mol_charge with
    | none => .failed "acpype_params_cns" s
    | some (inp, par, top) =>
      .ok (writeFile (writeFile (writeFile s (output_acpype_inp cfg) inp)
            (output_acpype_par cfg) par) (output_acpype_top cfg) top)

/-- The `shutil.copyfile(output_babel_min, output_acpype_pdb)` statement at
the end of the CNS acpype cell: duplicate the minimized structure as the
bundle's coordinate file. -/
def shutil_copyfile (cfg : Config) (s : RunState) : Outcome :=
  let s := recordCall s (copyCall cfg)
  match readFile s (output_babel_min cfg) with
  | none => .failed "shutil.copyfile" s
  | some content => .ok (writeFile s (output_acpype_pdb cfg) content)

/-- Which notebook variant is run: the GROMACS tutorial or the CNS one. -/
inductive Variant where
  | gmx
  | cns
deriving DecidableEq, Repr

/-- The parameter-generation cell of a variant.  In the CNS notebook the
`acpype_params_cns` call and the `shutil.copyfile` are one cell. -/
def paramCell (v : Variant) (t : Tools) (cfg : Config) (s : RunState) : Outcome :=
  match v with
  | .gmx => acpype_params_gmx t cfg s
  | .cns => (acpype_params_cns t cfg s).andThen (shutil_copyfile cfg)

/-- The whole pipeline of a variant, cell after cell, halting at the first
raised error. -/
def runOf (v : Variant) (t : Tools) (cfg : Config) : Outcome :=
  ((((Outcome.ok initialState).andThen (ligand t cfg)).andThen
      (babel_add_hydrogens t cfg)).andThen
    (babel_minimize t cfg)).andThen (paramCell v t cfg)

/-- The canonical straight chain of invocations of a variant. -/
def chainOf (v : Variant) (cfg : Config) : List Call :=
  match v with
  | .gmx => [fetchCall cfg, addHCall cfg, minimizeCall cfg, acpypeGmxCall cfg]
  | .cns => [fetchCall cfg, addHCall cfg, minimizeCall cfg, acpypeCnsCall cfg,
      copyCall cfg]

/-- The file names a complete run of a variant creates, in creation order. -/
def outputFiles (v : Variant) (cfg : Config) : List String :=
  match v with
  | .gmx => [input_structure cfg, output_babel_h cfg, output_babel_min cfg,
      output_acpype_gro cfg, output_acpype_itp cfg, output_acpype_top cfg]
  | .cns => [input_structure cfg, output_babel_h cfg, output_babel_min cfg,
      output_acpype_inp cfg, output_acpype_par cfg, output_acpype_top cfg,
      output_acpype_pdb cfg]

/-- The file-name extension: the characters after the last dot.  The
notebook's stages that do not declare a chemical format (the minimizer and
the parameter generator infer it) are keyed by this suffix. -/
def extension (p : String) : String :=
  String.mk ((p.data.reverse.takeWhile (fun ch => ch != '.')).reverse)

/-- Lookup in a property dictionary, as the building blocks read their
option mappings. -/
def lookupProp (ps : Props) (key : String) : Option PVal :=
  (ps.find? (fun kv => kv.1 == key)).map (fun kv => kv.2)

/-- The chemical format a recorded invocation declares or infers for its
input file: the `input_format` property when declared, otherwise the
extension of the input path. -/
def declaredInputFormat (c : Call) : String :=
  match lookupProp c.props "input_format" with
  | some (.str f) => f
  | _ => extension ((c.input_path).getD "")

/-- The chemical format a recorded invocation declares or infers for its
(first) output file: the `output_format` property when declared, otherwise
the extension of the first output path. -/
def declaredOutputFormat (c : Call) : String :=
  match lookupProp c.props "output_format" with
  | some (.str f) => f
  | _ => extension (c.output_paths.headD "")

/-- A view object built by a visualization cell: the structure file path it
was given, the file content `nglview.show_structure_file` read, and the
representation and camera settings the cell applies. -/
structure Rendering where
  path : String
  content : Option String
  representation : String
  camera : String
deriving DecidableEq, Repr

/-- A visualization cell: `nglview.show_structure_file(path)` followed by
`add_representation(repr_type='ball+stick')` and `camera='orthographic'`.
It reads the structure file and builds a view object; it writes nothing. -/
def show_structure_file (s : RunState) (path : String) : Rendering :=
  ⟨path, readFile s path, "ball+stick", "orthographic"⟩

/-- The GROMACS notebook as a whole, visualization cells included: each
pipeline cell is followed by the tutorial's view cells (plus the
three-panel comparison after minimization), and a raised error stops the
notebook, so the views made so far are kept and no later cell runs. -/
def runNotebookGmx (t : Tools) (cfg : Config) : Outcome × List Rendering :=
  match ligand t cfg initialState with
  | .failed m s => (.failed m s, [])
  | .ok s1 =>
    let v1 := show_structure_file s1 (input_structure cfg)
    match babel_add_hydrogens t cfg s1 with
    | .failed m s => (.failed m s, [v1])
    | .ok s2 =>
      let v2 := show_structure_file s2 (output_babel_h cfg)
      match babel_minimize t cfg s2 with
      | .failed m s => (.failed m s, [v1, v2])
      | .ok s3 =>
        let v3 := show_structure_file s3 (output_babel_min cfg)
        let w1 := show_structure_file s3 (input_structure cfg)
        let w2 := show_structure_file s3 (output_babel_h cfg)
        let w3 := show_structure_file s3 (output_babel_min cfg)
        match acpype_params_gmx t cfg s3 with
        | .failed m s => (.failed m s, [v1, v2, v3, w1, w2, w3])
        | .ok s4 =>
          let v4 := show_structure_file s4 (output_acpype_gro cfg)
          (.ok s4, [v1, v2, v3, w1, w2, w3, v4])

/-- The CNS notebook as a whole, visualization cells included; its final
view cell renders the copied coordinate file `<ligandCode>params.pdb`. -/
def runNotebookCns (t : Tools) (cfg : Config) : Outcome × List Rendering :=
  match ligand t cfg initialState with
  | .failed m s => (.failed m s, [])
  | .ok s1 =>
    let v1 := show_structure_file s1 (input_structure cfg)
    match babel_add_hydrogens t cfg s1 with
    | .failed m s => (.failed m s, [v1])
    | .ok s2 =>
      let v2 := show_structure_file s2 (output_babel_h cfg)
      match babel_minimize t cfg s2 with
      | .failed m s => (.failed m s, [v1, v2])
      | .ok s3 =>
        let v3 := show_structure_file s3 (output_babel_min cfg)
        let w1 := show_structure_file s3 (input_structure cfg)
        let w2 := show_structure_file s3 (output_babel_h cfg)
        let w3 := show_structure_file s3 (output_babel_min cfg)
        match (acpype_params_cns t cfg s3).andThen (shutil_copyfile cfg) with
        | .failed m s => (.failed m s, [v1, v2, v3, w1, w2, w3])
        | .ok s4 =>
          let v4 := show_structure_file s4 (output_acpype_pdb cfg)
          (.ok s4, [v1, v2, v3, w1, w2, w3, v4])

/-- The notebook of a variant, visualization cells included. -/
def runNotebookOf (v : Variant) (t : Tools) (cfg : Config) : Outcome × List Rendering :=
  match v with
  | .gmx => runNotebookGmx t cfg
  | .cns => runNotebookCns t cfg

/-- How far the notebook has got: which pipeline cell runs next.  `finished`
and `halted` are the two terminal situations. -/
inductive Phase where
  | start
  | fetched
  | hydrogenated
  | minimized
  | finished
  | halted
deriving DecidableEq, Repr

/-- The pipeline cell to execute at a phase, `none` at a terminal phase. -/
def cellOf (v : Variant) (t : Tools) (cfg : Config) : Phase → Option (RunState → Outcome)
  | .start => some (ligand t cfg)
  | .fetched => some (babel_add_hydrogens t cfg)
  | .hydrogenated => some (babel_minimize t cfg)
  | .minimized => some (paramCell v t cfg)
  | .finished => none
  | .halted => none

/-- The phase after a cell completes normally. -/
def nextPhase : Phase → Phase
  | .start => .fetched
  | .fetched => .hydrogenated
  | .hydrogenated => .minimized
  | .minimized => .finished
  | .finished => .finished
  | .halted => .halted

/-- A notebook execution state: the phase and the run state. -/
structure NbState where
  phase : Phase
  st : RunState
deriving DecidableEq, Repr

/-- Small-step execution of the notebook: at a non-terminal phase the one
cell of that phase runs, either completing normally or halting the
notebook.  This is the step relation whose functionality expresses that the
orchestration is deterministic. -/
inductive NbStep (v : Variant) (t : Tools) (cfg : Config) : NbState → NbState → Prop where
  | step_ok : ∀ p s f s', cellOf v t cfg p = some f → f s = .ok s' →
      NbStep v t cfg ⟨p, s⟩ ⟨nextPhase p, s'⟩
  | step_fail : ∀ p s f m s', cellOf v t cfg p = some f → f s = .failed m s' →
      NbStep v t cfg ⟨p, s⟩ ⟨.halted, s'⟩

/-- A terminal notebook state: the notebook finished or halted. -/
def TerminalNb (n : NbState) : Prop := n.phase = .finished ∨ n.phase = .halted

/-- A concrete toolchain on which every external tool succeeds and returns
non-empty content, used to evaluate the theorems at concrete inputs. -/
def toolsOK : Tools where
  fetch := fun code => some ("PDB:" ++ code)
  addHydrogens := fun content _ _ _ => some (content ++ "+H")
  minimize := fun content _ _ _ => some (content ++ "+min")
  acpypeGmx := fun content base _ =>
    some (content ++ "|" ++ base ++ ".gro", content ++ "|" ++ base ++ ".itp",
      content ++ "|" ++ base ++ ".top")
  acpypeCns := fun content base _ =>
    some (content ++ "|" ++ base ++ ".inp", content ++ "|" ++ base ++ ".par",
      content ++ "|" ++ base ++ ".top")

/-- A concrete toolchain whose hydrogen-addition tool raises. -/
def toolsAddHFails : Tools where
  fetch := fun code => some ("PDB:" ++ code)
  addHydrogens := fun _ _ _ _ => none
  minimize := fun content _ _ _ => some (content ++ "+min")
  acpypeGmx := fun content base _ =>
    some (content ++ "|" ++ base ++ ".gro", content ++ "|" ++ base ++ ".itp",
      content ++ "|" ++ base ++ ".top")
  acpypeCns := fun content base _ =>
    some (content ++ "|" ++ base ++ ".inp", content ++ "|" ++ base ++ ".par",
      content ++ "|" ++ base ++ ".top")

/-- The GROMACS tutorial's input parameters: ligand `IBP`, charge `-1`,
pH `7.4`. -/
def cfgIBP : Config := ⟨"IBP", -1, 7.4⟩

/-- The CNS tutorial's input parameters: ligand `G39`, charge `0`, pH `7.4`. -/
def cfgG39 : Config := ⟨"G39", 0, 7.4⟩

/-- The state after the fetch cell of the concrete GROMACS run. -/
def nbS1 : RunState := (ligand toolsOK cfgIBP initialState).state

/-- The state after the hydrogen-addition cell of the concrete GROMACS run. -/
def nbS2 : RunState := (babel_add_hydrogens toolsOK cfgIBP nbS1).state

/-- The state after the minimization cell of the concrete GROMACS run. -/
def nbS3 : RunState := (babel_minimize toolsOK cfgIBP nbS2).state

/-- The state after the parameter-generation cell of the concrete GROMACS
run. -/
def nbS4 : RunState := (paramCell .gmx toolsOK cfgIBP nbS3).state

/-- Left cancellation for string append, used to tell the pipeline's file
names apart: they all share the ligand code as prefix and differ in their
literal suffixes. -/
theorem append_left_cancel {c a b : String} (h : c ++ a = c ++ b) : a = b := by
  have hd := congrArg String.data h
  simp only [String.data_append] at hd
  exact String.ext (List.append_cancel_left hd)

/-- Two pipeline file names with the same ligand-code prefix and different
literal suffixes are different keys of the working directory. -/
theorem append_key_ne (c : String) {a b : String} (h : a ≠ b) :
    (c ++ a == c ++ b) = false :=
  beq_eq_false_iff_ne.mpr (fun hc => h (append_left_cancel hc))

@[simp] theorem state_ok (s : RunState) : (Outcome.ok s).state = s := rfl

@[simp] theorem state_failed (m : String) (s : RunState) :
    (Outcome.failed m s).state = s := rfl

@[simp] theorem fs_recordCall (s : RunState) (c : Call) :
    (recordCall s c).fs = s.fs := rfl

@[simp] theorem trace_recordCall (s : RunState) (c : Call) :
    (recordCall s c).trace = s.trace := rfl

@[simp] theorem calls_recordCall (s : RunState) (c : Call) :
    (recordCall s c).calls = s.calls ++ [c] := rfl

@[simp] theorem fs_writeFile (s : RunState) (p v : String) :
    (writeFile s p v).fs = (p, v) :: s.fs := rfl

@[simp] theorem trace_writeFile (s : RunState) (p v : String) :
    (writeFile s p v).trace = s.trace ++ [p] := rfl

@[simp] theorem calls_writeFile (s : RunState) (p v : String) :
    (writeFile s p v).calls = s.calls := rfl

@[simp] theorem readFile_recordCall (s : RunState) (c : Call) (p : String) :
    readFile (recordCall s c) p = readFile s p := rfl

@[simp] theorem readFile_writeFile_same (s : RunState) (p v : String) :
    readFile (writeFile s p v) p = some v := by
  simp [readFile, writeFile]

theorem readFile_writeFile_ne (s : RunState) {q p : String} (v : String)
    (h : (q == p) = false) :
    readFile (writeFile s q v) p = readFile s p := by
  simp [readFile, writeFile, List.find?_cons, h]

@[simp] theorem readFile_initialState (p : String) :
    readFile initialState p = none := rfl

@[simp] theorem fs_initialState : initialState.fs = [] := rfl

@[simp] theorem trace_initialState : initialState.trace = [] := rfl

@[simp] theorem calls_initialState : initialState.calls = [] := rfl

/-- Reading one pipeline file name after writing a different one leaves the
read unchanged: both names share the ligand-code prefix and their literal
suffixes differ. -/
@[simp] theorem readFile_writeFile_suffix_ne (s : RunState) (c : String) {a b : String}
    (v : String) (h : (a == b) = false) :
    readFile (writeFile s (c ++ a) v) (c ++ b) = readFile s (c ++ b) := by
  apply readFile_writeFile_ne
  refine beq_eq_false_iff_ne.mpr (fun hc => ?_)
  exact (beq_eq_false_iff_ne.mp h) (append_left_cancel hc)

/-- Characterization of a normally completed GROMACS run: every tool was
consulted once, in chain order, on the previous tool's output; the
invocation list is the canonical chain; the trace is the canonical file
list; and the working directory holds every intermediate and final file. -/
theorem run_ok_char_gmx (t : Tools) (cfg : Config) (s : RunState)
    (h : runOf .gmx t cfg = .ok s) :
    ∃ fc hc mc gro itp top,
      t.fetch cfg.ligandCode = some fc ∧
      t.addHydrogens fc cfg.pH "pdb" "mol2" = some hc ∧
      t.minimize hc "sd" "1e-10" "GAFF" = some mc ∧
      t.acpypeGmx mc (output_acpype cfg) cfg.mol_charge = some (gro, itp, top) ∧
      s.calls = chainOf .gmx cfg ∧
      s.trace = outputFiles .gmx cfg ∧
      readFile s (input_structure cfg) = some fc ∧
      readFile s (output_babel_h cfg) = some hc ∧
      readFile s (output_babel_min cfg) = some mc ∧
      readFile s (output_acpype_gro cfg) = some gro ∧
      readFile s (output_acpype_itp cfg) = some itp ∧
      readFile s (output_acpype_top cfg) = some top := by
  rcases hf : t.fetch cfg.ligandCode with _ | fc
  · simp [runOf, Outcome.andThen, ligand, hf, initialState] at h
  · rcases hh : t.addHydrogens fc cfg.pH "pdb" "mol2" with _ | hc
    · simp [runOf, Outcome.andThen, ligand, hf, babel_add_hydrogens, hh, initialState] at h
    · rcases hm : t.minimize hc "sd" "1e-10" "GAFF" with _ | mc
      · simp [runOf, Outcome.andThen, ligand, hf, babel_add_hydrogens, hh,
          babel_minimize, hm, initialState] at h
      · rcases ha : t.acpypeGmx mc (output_acpype cfg) cfg.mol_charge with _ | ⟨gro, itp, top⟩
        · simp [runOf, Outcome.andThen, ligand, hf, babel_add_hydrogens, hh,
            babel_minimize, hm, paramCell, acpype_params_gmx, ha, initialState] at h
        · simp only [runOf, Outcome.andThen, ligand, hf, babel_add_hydrogens,
            babel_minimize, paramCell, acpype_params_gmx, ha, initialState,
            readFile_recordCall, readFile_writeFile_same, hh, hm] at h
          rw [Outcome.ok.injEq] at h
          subst h
          refine ⟨fc, hc, mc, gro, itp, top, rfl, hh, hm, ha, ?_, ?_, ?_, ?_, ?_, ?_, ?_, ?_⟩ <;>
            simp [chainOf, outputFiles, initialState, input_structure, output_babel_h,
              output_babel_min, output_acpype_gro, output_acpype_itp, output_acpype_top]

/-- Characterization of a normally completed CNS run, the analogue of
`run_ok_char_gmx`; in addition the coordinate member of the bundle,
`<ligandCode>params.pdb`, holds the same content as the minimized
structure (it is the `shutil.copyfile` duplicate). -/
theorem run_ok_char_cns (t : Tools) (cfg : Config) (s : RunState)
    (h : runOf .cns t cfg = .ok s) :
    ∃ fc hc mc inp par top,
      t.fetch cfg.ligandCode = some fc ∧
      t.addHydrogens fc cfg.pH "pdb" "mol2" = some hc ∧
      t.minimize hc "sd" "1e-10" "GAFF" = some mc ∧
      t.acpypeCns mc (output_acpype cfg) cfg.mol_charge = some (inp, par, top) ∧
      s.calls = chainOf .cns cfg ∧
      s.trace = outputFiles .cns cfg ∧
      readFile s (input_structure cfg) = some fc ∧
      readFile s (output_babel_h cfg) = some hc ∧
      readFile s (output_babel_min cfg) = some mc ∧
      readFile s (output_acpype_inp cfg) = some inp ∧
      readFile s (output_acpype_par cfg) = some par ∧
      readFile s (output_acpype_top cfg) = some top ∧
      readFile s (output_acpype_pdb cfg) = some mc := by
  rcases hf : t.fetch cfg.ligandCode with _ | fc
  · simp [runOf, Outcome.andThen, ligand, hf, initialState] at h
  · rcases hh : t.addHydrogens fc cfg.pH "pdb" "mol2" with _ | hc
    · simp [runOf, Outcome.andThen, ligand, hf, babel_add_hydrogens, hh, initialState] at h
    · rcases hm : t.minimize hc "sd" "1e-10" "GAFF" with _ | mc
      · simp [runOf, Outcome.andThen, ligand, hf, babel_add_hydrogens, hh,
          babel_minimize, hm, initialState] at h
      · rcases ha : t.acpypeCns mc (output_acpype cfg) cfg.mol_charge with _ | ⟨inp, par, top⟩
        · simp [runOf, Outcome.andThen, ligand, hf, babel_add_hydrogens, hh,
            babel_minimize, hm, paramCell, acpype_params_cns, ha, initialState] at h
        · simp [runOf, Outcome.andThen, ligand, hf, babel_add_hydrogens,
            babel_minimize, paramCell, acpype_params_cns, shutil_copyfile, ha,
            initialState, hh, hm, input_structure, output_babel_h,
            output_babel_min, output_acpype_inp, output_acpype_par, output_acpype_top,
            output_acpype_pdb] at h
          subst h
          refine ⟨fc, hc, mc, inp, par, top, rfl, hh, hm, ha, ?_, ?_, ?_, ?_, ?_, ?_, ?_, ?_, ?_⟩ <;>
            simp [chainOf, outputFiles, initialState, input_structure, output_babel_h,
              output_babel_min, output_acpype_inp, output_acpype_par, output_acpype_top,
              output_acpype_pdb]

/-- Characterization of a halted run: some step's tool raised; the calls
made are exactly the chain up to and including the failing step, no step
name repeats (no retry), and neither the steps after the failing one were
invoked nor any of their output files created. -/
theorem run_failed_char (v : Variant) (t : Tools) (cfg : Config) (m : String) (s : RunState)
    (h : runOf v t cfg = .failed m s) :
    ∃ k, k + 1 ≤ (chainOf v cfg).length ∧
      s.calls = (chainOf v cfg).take (k + 1) ∧
      s.trace = (outputFiles v cfg).take k ∧
      (s.calls.map Call.step).Nodup ∧
      ∀ c ∈ (chainOf v cfg).drop (k + 1),
        c.step ∉ s.calls.map Call.step ∧ ∀ p ∈ c.output_paths, readFile s p = none := by
  cases v
  case gmx =>
    rcases hf : t.fetch cfg.ligandCode with _ | fc
    · refine ⟨0, ?_⟩
      simp [runOf, Outcome.andThen, ligand, hf] at h
      simp [← h.2, chainOf, outputFiles, fetchCall, addHCall, minimizeCall, acpypeGmxCall,
        readFile, input_structure, output_babel_h, output_babel_min,
        output_acpype_gro, output_acpype_itp, output_acpype_top]
    · rcases hh : t.addHydrogens fc cfg.pH "pdb" "mol2" with _ | hc
      · refine ⟨1, ?_⟩
        simp [runOf, Outcome.andThen, ligand, hf, babel_add_hydrogens, hh,
          input_structure] at h
        simp [← h.2, chainOf, outputFiles, fetchCall, addHCall, minimizeCall, acpypeGmxCall,
          input_structure, output_babel_h, output_babel_min,
          output_acpype_gro, output_acpype_itp, output_acpype_top]
      · rcases hm : t.minimize hc "sd" "1e-10" "GAFF" with _ | mc
        · refine ⟨2, ?_⟩
          simp [runOf, Outcome.andThen, ligand, hf, babel_add_hydrogens, hh,
            babel_minimize, hm, input_structure, output_babel_h] at h
          simp [← h.2, chainOf, outputFiles, fetchCall, addHCall, minimizeCall, acpypeGmxCall,
            input_structure, output_babel_h, output_babel_min,
            output_acpype_gro, output_acpype_itp, output_acpype_top]
        · rcases ha : t.acpypeGmx mc (output_acpype cfg) cfg.mol_charge with _ | ⟨gro, itp, top⟩
          · refine ⟨3, ?_⟩
            simp [runOf, Outcome.andThen, ligand, hf, babel_add_hydrogens, hh,
              babel_minimize, hm, paramCell, acpype_params_gmx, ha,
              input_structure, output_babel_h, output_babel_min] at h
            simp [← h.2, chainOf, outputFiles, fetchCall, addHCall, minimizeCall, acpypeGmxCall,
              input_structure, output_babel_h, output_babel_min,
              output_acpype_gro, output_acpype_itp, output_acpype_top]
          · simp [runOf, Outcome.andThen, ligand, hf, babel_add_hydrogens, hh,
              babel_minimize, hm, paramCell, acpype_params_gmx, ha] at h
  case cns =>
    rcases hf : t.fetch cfg.ligandCode with _ | fc
    · refine ⟨0, ?_⟩
      simp [runOf, Outcome.andThen, ligand, hf] at h
      simp [← h.2, chainOf, outputFiles, fetchCall, addHCall, minimizeCall, acpypeCnsCall, copyCall,
        readFile, input_structure, output_babel_h, output_babel_min,
        output_acpype_inp, output_acpype_par, output_acpype_top, output_acpype_pdb]
    · rcases hh : t.addHydrogens fc cfg.pH "pdb" "mol2" with _ | hc
      · refine ⟨1, ?_⟩
        simp [runOf, Outcome.andThen, ligand, hf, babel_add_hydrogens, hh,
          input_structure] at h
        simp [← h.2, chainOf, outputFiles, fetchCall, addHCall, minimizeCall, acpypeCnsCall, copyCall,
          input_structure, output_babel_h, output_babel_min,
          output_acpype_inp, output_acpype_par, output_acpype_top, output_acpype_pdb]
      · rcases hm : t.minimize hc "sd" "1e-10" "GAFF" with _ | mc
        · refine ⟨2, ?_⟩
          simp [runOf, Outcome.andThen, ligand, hf, babel_add_hydrogens, hh,
            babel_minimize, hm, input_structure, output_babel_h] at h
          simp [← h.2, chainOf, outputFiles, fetchCall, addHCall, minimizeCall, acpypeCnsCall, copyCall,
            input_structure, output_babel_h, output_babel_min,
            output_acpype_inp, output_acpype_par, output_acpype_top, output_acpype_pdb]
        · rcases ha : t.acpypeCns mc (output_acpype cfg) cfg.mol_charge with _ | ⟨inp, par, top⟩
          · refine ⟨3, ?_⟩
            simp [runOf, Outcome.andThen, ligand, hf, babel_add_hydrogens, hh,
              babel_minimize, hm, paramCell, acpype_params_cns, ha,
              input_structure, output_babel_h, output_babel_min] at h
            simp [← h.2, chainOf, outputFiles, fetchCall, addHCall, minimizeCall, acpypeCnsCall, copyCall,
              input_structure, output_babel_h, output_babel_min,
              output_acpype_inp, output_acpype_par, output_acpype_top, output_acpype_pdb]
          · simp [runOf, Outcome.andThen, ligand, hf, babel_add_hydrogens, hh,
              babel_minimize, hm, paramCell, acpype_params_cns, shutil_copyfile, ha,
              input_structure, output_babel_h, output_babel_min,
              output_acpype_inp, output_acpype_par, output_acpype_top,
              output_acpype_pdb] at h

end LigandParam

namespace LigandParam

/-- C1: the pipeline is a straight chain.  In every run, of either variant,
the recorded invocations are an initial segment of the canonical chain with
no step repeated (no retry, no branch), a normally completed run performs
exactly the whole chain (no step skipped), and the `input_path` of each of
the hydrogen-addition, minimization and parameter-generation steps equals
the single output path of the step before it. -/
theorem c1_straight_chain (v : Variant) (t : Tools) (cfg : Config) :
    (∃ k, (runOf v t cfg).state.calls = (chainOf v cfg).take k) ∧
    (∀ s, runOf v t cfg = .ok s → s.calls = chainOf v cfg) ∧
    ((runOf v t cfg).state.calls.map Call.step).Nodup ∧
    (addHCall cfg).input_path = some (input_structure cfg) ∧
    (fetchCall cfg).output_paths = [input_structure cfg] ∧
    (minimizeCall cfg).input_path = some (output_babel_h cfg) ∧
    (addHCall cfg).output_paths = [output_babel_h cfg] ∧
    (acpypeGmxCall cfg).input_path = some (output_babel_min cfg) ∧
    (acpypeCnsCall cfg).input_path = some (output_babel_min cfg) ∧
    (minimizeCall cfg).output_paths = [output_babel_min cfg] := by
  refine ⟨?_, ?_, ?_, rfl, rfl, rfl, rfl, rfl, rfl, rfl⟩
  · rcases ho : runOf v t cfg with s | ⟨m, s⟩
    · cases v
      case gmx =>
        obtain ⟨_, _, _, _, _, _, _, _, _, _, hcalls, _⟩ := run_ok_char_gmx t cfg s ho
        exact ⟨4, by simp [hcalls, chainOf]⟩
      case cns =>
        obtain ⟨_, _, _, _, _, _, _, _, _, _, hcalls, _⟩ := run_ok_char_cns t cfg s ho
        exact ⟨5, by simp [hcalls, chainOf]⟩
    · obtain ⟨k, _, hcalls, _, _, _⟩ := run_failed_char v t cfg m s ho
      exact ⟨k + 1, by simp [hcalls]⟩
  · intro s hs
    cases v
    case gmx =>
      obtain ⟨_, _, _, _, _, _, _, _, _, _, hcalls, _⟩ := run_ok_char_gmx t cfg s hs
      exact hcalls
    case cns =>
      obtain ⟨_, _, _, _, _, _, _, _, _, _, hcalls, _⟩ := run_ok_char_cns t cfg s hs
      exact hcalls
  · rcases ho : runOf v t cfg with s | ⟨m, s⟩
    · cases v
      case gmx =>
        obtain ⟨_, _, _, _, _, _, _, _, _, _, hcalls, _⟩ := run_ok_char_gmx t cfg s ho
        simp [hcalls, chainOf, fetchCall, addHCall, minimizeCall, acpypeGmxCall]
      case cns =>
        obtain ⟨_, _, _, _, _, _, _, _, _, _, hcalls, _⟩ := run_ok_char_cns t cfg s ho
        simp [hcalls, chainOf, fetchCall, addHCall, minimizeCall, acpypeCnsCall, copyCall]
    · obtain ⟨k, _, _, _, hnd, _⟩ := run_failed_char v t cfg m s ho
      simpa using hnd

/-- C2: the produced file names follow the naming convention.  In every run
the creation trace is an initial segment of the canonical name list, a
normally completed run creates exactly that list, and the list is the
ligand code followed by the documented suffixes (with the topology bundle
named from the basename `<ligandCode>params`). -/
theorem c2_file_names (v : Variant) (t : Tools) (cfg : Config) :
    (∃ k, (runOf v t cfg).state.trace = (outputFiles v cfg).take k) ∧
    (∀ s, runOf v t cfg = .ok s → s.trace = outputFiles v cfg) ∧
    outputFiles .gmx cfg = [cfg.ligandCode ++ ".pdb", cfg.ligandCode ++ ".H.mol2",
      cfg.ligandCode ++ ".H.min.pdb", cfg.ligandCode ++ "params" ++ ".gro",
      cfg.ligandCode ++ "params" ++ ".itp", cfg.ligandCode ++ "params" ++ ".top"] ∧
    outputFiles .cns cfg = [cfg.ligandCode ++ ".pdb", cfg.ligandCode ++ ".H.mol2",
      cfg.ligandCode ++ ".H.min.pdb", cfg.ligandCode ++ "params" ++ ".inp",
      cfg.ligandCode ++ "params" ++ ".par", cfg.ligandCode ++ "params" ++ ".top",
      cfg.ligandCode ++ "params" ++ ".pdb"] := by
  refine ⟨?_, ?_, ?_, ?_⟩
  · rcases ho : runOf v t cfg with s | ⟨m, s⟩
    · cases v
      case gmx =>
        obtain ⟨_, _, _, _, _, _, _, _, _, _, _, htrace, _⟩ := run_ok_char_gmx t cfg s ho
        exact ⟨6, by simp [htrace, outputFiles]⟩
      case cns =>
        obtain ⟨_, _, _, _, _, _, _, _, _, _, _, htrace, _⟩ := run_ok_char_cns t cfg s ho
        exact ⟨7, by simp [htrace, outputFiles]⟩
    · obtain ⟨k, _, _, htrace, _, _⟩ := run_failed_char v t cfg m s ho
      exact ⟨k, by simp [htrace]⟩
  · intro s hs
    cases v
    case gmx =>
      obtain ⟨_, _, _, _, _, _, _, _, _, _, _, htrace, _⟩ := run_ok_char_gmx t cfg s hs
      exact htrace
    case cns =>
      obtain ⟨_, _, _, _, _, _, _, _, _, _, _, htrace, _⟩ := run_ok_char_cns t cfg s hs
      exact htrace
  · simp [outputFiles, input_structure, output_babel_h, output_babel_min,
      output_acpype_gro, output_acpype_itp, output_acpype_top, String.append_assoc]
  · simp [outputFiles, input_structure, output_babel_h, output_babel_min,
      output_acpype_inp, output_acpype_par, output_acpype_top, output_acpype_pdb,
      String.append_assoc]

end LigandParam

namespace LigandParam

/-- C4: a raised tool error halts the run at the failing step.  In every run
of either variant that ends in failure, the invocation list is exactly the
canonical chain up to and including the failing step, no step name repeats
(no retry), and every step after the failing one is neither invoked nor are
any of its output files ever created. -/
theorem c4_failure_halts (v : Variant) (t : Tools) (cfg : Config) (m : String)
    (s : RunState) (h : runOf v t cfg = .failed m s) :
    ∃ k, k + 1 ≤ (chainOf v cfg).length ∧
      s.calls = (chainOf v cfg).take (k + 1) ∧
      (s.calls.map Call.step).Nodup ∧
      ∀ c ∈ (chainOf v cfg).drop (k + 1),
        c.step ∉ s.calls.map Call.step ∧ ∀ p ∈ c.output_paths, readFile s p = none := by
  obtain ⟨k, hk, hcalls, _, hnd, hlater⟩ := run_failed_char v t cfg m s h
  exact ⟨k, hk, hcalls, hnd, hlater⟩

/-- Witness for C4: on the concrete toolchain whose hydrogen-addition tool
raises, the GROMACS run halts after the hydrogen-addition step. -/
theorem c4_failure_halts_witness :
    ∃ k, k + 1 ≤ (chainOf .gmx cfgIBP).length ∧
      (runOf .gmx toolsAddHFails cfgIBP).state.calls = (chainOf .gmx cfgIBP).take (k + 1) ∧
      ((runOf .gmx toolsAddHFails cfgIBP).state.calls.map Call.step).Nodup ∧
      ∀ c ∈ (chainOf .gmx cfgIBP).drop (k + 1),
        c.step ∉ (runOf .gmx toolsAddHFails cfgIBP).state.calls.map Call.step ∧
        ∀ p ∈ c.output_paths, readFile (runOf .gmx toolsAddHFails cfgIBP).state p = none :=
  c4_failure_halts .gmx toolsAddHFails cfgIBP "babel_add_hydrogens"
    (runOf .gmx toolsAddHFails cfgIBP).state (by rfl)

/-- Helper: in every run the invocation list is an initial segment of the
canonical chain. -/
theorem run_calls_take (v : Variant) (t : Tools) (cfg : Config) :
    ∃ k, (runOf v t cfg).state.calls = (chainOf v cfg).take k := by
  rcases ho : runOf v t cfg with s | ⟨m, s⟩
  · cases v
    case gmx =>
      obtain ⟨_, _, _, _, _, _, _, _, _, _, hcalls, _⟩ := run_ok_char_gmx t cfg s ho
      exact ⟨4, by simp [hcalls, chainOf]⟩
    case cns =>
      obtain ⟨_, _, _, _, _, _, _, _, _, _, hcalls, _⟩ := run_ok_char_cns t cfg s ho
      exact ⟨5, by simp [hcalls, chainOf]⟩
  · obtain ⟨k, _, hcalls, _, _, _⟩ := run_failed_char v t cfg m s ho
    exact ⟨k + 1, by simp [hcalls]⟩

/-- C6: the minimization step is always invoked with exactly four inputs,
namely the hydrogenated structure file and the three option values
method `sd` (steepest descent), criteria `1e-10` and force field `GAFF`,
and it names a single output file, the minimized structure.  Every
minimization invocation of every run is exactly this call. -/
theorem c6_minimize_inputs (v : Variant) (t : Tools) (cfg : Config) :
    (minimizeCall cfg).input_path = some (output_babel_h cfg) ∧
    (minimizeCall cfg).props = [("method", PVal.str "sd"),
      ("criteria", PVal.str "1e-10"), ("force_field", PVal.str "GAFF")] ∧
    (minimizeCall cfg).output_paths = [output_babel_min cfg] ∧
    ∀ c ∈ (runOf v t cfg).state.calls, c.step = .minimize → c = minimizeCall cfg := by
  refine ⟨rfl, rfl, rfl, ?_⟩
  obtain ⟨k, hcalls⟩ := run_calls_take v t cfg
  intro c hc hstep
  rw [hcalls] at hc
  have hmem : c ∈ chainOf v cfg := List.take_subset k _ hc
  cases v
  case gmx =>
    simp only [chainOf, List.mem_cons, List.not_mem_nil, or_false] at hmem
    rcases hmem with rfl | rfl | rfl | rfl <;>
      simp_all [fetchCall, addHCall, minimizeCall, acpypeGmxCall]
  case cns =>
    simp only [chainOf, List.mem_cons, List.not_mem_nil, or_false] at hmem
    rcases hmem with rfl | rfl | rfl | rfl | rfl <;>
      simp_all [fetchCall, addHCall, minimizeCall, acpypeCnsCall, copyCall]

end LigandParam

namespace LigandParam

/-- Counterexample to C3 as stated: in the concrete CNS run (ligand `G39`,
charge `0`, pH `7.4`, all tools succeeding) the bundle's coordinate file
`G39params.pdb` is created by the run, yet it is not among the output paths
of the `acpype_params_cns` invocation: it is the output of the separate
`shutil.copyfile` statement, which is not the parameter-generation call.
So the single parameter-generation call does not write the entire CNS
bundle. -/
theorem c3_counterexample :
    output_acpype_pdb cfgG39 ∈ (runOf .cns toolsOK cfgG39).state.trace ∧
    output_acpype_pdb cfgG39 ∉ (acpypeCnsCall cfgG39).output_paths ∧
    acpypeCnsCall cfgG39 ∈ (runOf .cns toolsOK cfgG39).state.calls ∧
    copyCall cfgG39 ∈ (runOf .cns toolsOK cfgG39).state.calls ∧
    (copyCall cfgG39).step ≠ StepName.acpypeCns ∧
    output_acpype_pdb cfgG39 ∈ (copyCall cfgG39).output_paths := by
  decide

end LigandParam

namespace LigandParam

/-- C3 amended: the parameter-generation call writes the topology bundle as
follows, using the user-supplied net molecular charge.  In the GROMACS
variant the single call writes the whole bundle (structure `.gro`,
include-topology `.itp`, topology `.top`).  In the CNS variant the single
call writes the parameter `.inp`, the `.par` and the topology `.top` files
only; the bundle's coordinate member `<ligandCode>params.pdb` is not an
output of that call but is written immediately afterwards by the
notebook's `shutil.copyfile` duplicate of the minimized structure. -/
theorem c3_param_bundle (t : Tools) (cfg : Config) :
    (acpypeGmxCall cfg).output_paths =
      [output_acpype_gro cfg, output_acpype_itp cfg, output_acpype_top cfg] ∧
    (acpypeCnsCall cfg).output_paths =
      [output_acpype_inp cfg, output_acpype_par cfg, output_acpype_top cfg] ∧
    ("charge", PVal.int cfg.mol_charge) ∈ (acpypeGmxCall cfg).props ∧
    ("charge", PVal.int cfg.mol_charge) ∈ (acpypeCnsCall cfg).props ∧
    output_acpype_pdb cfg ∉ (acpypeCnsCall cfg).output_paths ∧
    (∀ s, runOf .gmx t cfg = .ok s →
      readFile s (output_acpype_gro cfg) ≠ none ∧
      readFile s (output_acpype_itp cfg) ≠ none ∧
      readFile s (output_acpype_top cfg) ≠ none) ∧
    (∀ s, runOf .cns t cfg = .ok s →
      readFile s (output_acpype_pdb cfg) = readFile s (output_babel_min cfg)) := by
  refine ⟨rfl, rfl, by simp [acpypeGmxCall], by simp [acpypeCnsCall], ?_, ?_, ?_⟩
  · simp only [acpypeCnsCall, output_acpype_pdb, output_acpype_inp, output_acpype_par,
      output_acpype_top, List.mem_cons, List.not_mem_nil, or_false]
    rintro (h | h | h) <;> exact absurd (append_left_cancel h) (by decide)
  · intro s hs
    obtain ⟨_, _, _, _, _, _, _, _, _, _, _, _, _, _, _, hg, hi, ht⟩ :=
      run_ok_char_gmx t cfg s hs
    exact ⟨by simp [hg], by simp [hi], by simp [ht]⟩
  · intro s hs
    obtain ⟨_, _, mc, _, _, _, _, _, _, _, _, _, _, _, hmin, _, _, _, hpdb⟩ :=
      run_ok_char_cns t cfg s hs
    rw [hpdb, hmin]

end LigandParam

namespace LigandParam

/-- C10: in a normally completed CNS run the bundle's coordinate member
`<ligandCode>params.pdb` holds exactly the bytes of the minimized structure
`<ligandCode>.H.min.pdb`, which are the minimizer's output; it is not among
the parameter-generation call's output paths, and the invocation list and
creation trace show the copy happening after the parameter-generation
call (`copyfile` last, `params.pdb` created last). -/
theorem c10_cns_coordinate_copy (t : Tools) (cfg : Config) (s : RunState)
    (h : runOf .cns t cfg = .ok s) :
    ∃ fc hc mc,
      t.fetch cfg.ligandCode = some fc ∧
      t.addHydrogens fc cfg.pH "pdb" "mol2" = some hc ∧
      t.minimize hc "sd" "1e-10" "GAFF" = some mc ∧
      readFile s (output_acpype_pdb cfg) = some mc ∧
      readFile s (output_babel_min cfg) = some mc ∧
      readFile s (output_acpype_pdb cfg) = readFile s (output_babel_min cfg) ∧
      output_acpype_pdb cfg ∉ (acpypeCnsCall cfg).output_paths ∧
      s.calls = chainOf .cns cfg ∧
      s.trace = outputFiles .cns cfg := by
  obtain ⟨fc, hc, mc, inp, par, top, hf, hh, hm, _, hcalls, htrace, _, _, hmin, _, _, _, hpdb⟩ :=
    run_ok_char_cns t cfg s h
  refine ⟨fc, hc, mc, hf, hh, hm, hpdb, hmin, hpdb.trans hmin.symm, ?_, hcalls, htrace⟩
  simp only [acpypeCnsCall, output_acpype_pdb, output_acpype_inp, output_acpype_par,
    output_acpype_top, List.mem_cons, List.not_mem_nil, or_false]
  rintro (hx | hx | hx) <;> exact absurd (append_left_cancel hx) (by decide)

/-- Witness for C10: the concrete CNS run with ligand `G39` on the
all-succeeding toolchain. -/
theorem c10_cns_coordinate_copy_witness :
    ∃ fc hc mc,
      toolsOK.fetch cfgG39.ligandCode = some fc ∧
      toolsOK.addHydrogens fc cfgG39.pH "pdb" "mol2" = some hc ∧
      toolsOK.minimize hc "sd" "1e-10" "GAFF" = some mc ∧
      readFile (runOf .cns toolsOK cfgG39).state (output_acpype_pdb cfgG39) = some mc ∧
      readFile (runOf .cns toolsOK cfgG39).state (output_babel_min cfgG39) = some mc ∧
      readFile (runOf .cns toolsOK cfgG39).state (output_acpype_pdb cfgG39) =
        readFile (runOf .cns toolsOK cfgG39).state (output_babel_min cfgG39) ∧
      output_acpype_pdb cfgG39 ∉ (acpypeCnsCall cfgG39).output_paths ∧
      (runOf .cns toolsOK cfgG39).state.calls = chainOf .cns cfgG39 ∧
      (runOf .cns toolsOK cfgG39).state.trace = outputFiles .cns cfgG39 :=
  c10_cns_coordinate_copy toolsOK cfgG39 (runOf .cns toolsOK cfgG39).state rfl

end LigandParam

namespace LigandParam

/-- C5: visualization is a pure side channel.  A visualization cell only
reads a structure file and builds a view object; running the notebook with
its visualization cells produces exactly the same pipeline outcome (same
files, same trace, same invocations) as the bare pipeline, so removing the
visualization cells leaves the produced artifacts unchanged; and every
view rendered in any run read a file that existed at that point. -/
theorem c5_visualization_pure (v : Variant) (t : Tools) (cfg : Config) :
    (runNotebookOf v t cfg).1 = runOf v t cfg ∧
    (∀ s p, show_structure_file s p =
      ⟨p, readFile s p, "ball+stick", "orthographic"⟩) ∧
    (∀ r ∈ (runNotebookOf v t cfg).2, ∃ content, r.content = some content) := by
  refine ⟨?_, fun s p => rfl, ?_⟩ <;>
  · cases v
    case gmx =>
      rcases hf : t.fetch cfg.ligandCode with _ | fc
      · simp [runNotebookOf, runNotebookGmx, runOf, Outcome.andThen, ligand, hf]
      · rcases hh : t.addHydrogens fc cfg.pH "pdb" "mol2" with _ | hc
        · simp [runNotebookOf, runNotebookGmx, runOf, Outcome.andThen, ligand, hf,
            babel_add_hydrogens, hh, show_structure_file, input_structure]
        · rcases hm : t.minimize hc "sd" "1e-10" "GAFF" with _ | mc
          · simp [runNotebookOf, runNotebookGmx, runOf, Outcome.andThen, ligand, hf,
              babel_add_hydrogens, hh, babel_minimize, hm, show_structure_file,
              input_structure, output_babel_h]
          · rcases ha : t.acpypeGmx mc (output_acpype cfg) cfg.mol_charge with _ | ⟨gro, itp, top⟩ <;>
              simp [runNotebookOf, runNotebookGmx, runOf, Outcome.andThen, ligand, hf,
                babel_add_hydrogens, hh, babel_minimize, hm, paramCell,
                acpype_params_gmx, ha, show_structure_file, input_structure,
                output_babel_h, output_babel_min, output_acpype_gro,
                output_acpype_itp, output_acpype_top]
    case cns =>
      rcases hf : t.fetch cfg.ligandCode with _ | fc
      · simp [runNotebookOf, runNotebookCns, runOf, Outcome.andThen, ligand, hf]
      · rcases hh : t.addHydrogens fc cfg.pH "pdb" "mol2" with _ | hc
        · simp [runNotebookOf, runNotebookCns, runOf, Outcome.andThen, ligand, hf,
            babel_add_hydrogens, hh, show_structure_file, input_structure]
        · rcases hm : t.minimize hc "sd" "1e-10" "GAFF" with _ | mc
          · simp [runNotebookOf, runNotebookCns, runOf, Outcome.andThen, ligand, hf,
              babel_add_hydrogens, hh, babel_minimize, hm, show_structure_file,
              input_structure, output_babel_h]
          · rcases ha : t.acpypeCns mc (output_acpype cfg) cfg.mol_charge with _ | ⟨inp, par, top⟩ <;>
              simp [runNotebookOf, runNotebookCns, runOf, Outcome.andThen, ligand, hf,
                babel_add_hydrogens, hh, babel_minimize, hm, paramCell,
                acpype_params_cns, shutil_copyfile, ha, show_structure_file,
                input_structure, output_babel_h, output_babel_min, output_acpype_inp,
                output_acpype_par, output_acpype_top, output_acpype_pdb]

end LigandParam

namespace LigandParam

/-- Helper: `takeWhile` over an append stops inside the first part when
some element of the first part falsifies the predicate. -/
theorem takeWhile_append_stop {α : Type} (p : α → Bool) (l₁ l₂ : List α)
    (h : ∃ x ∈ l₁, p x = false) :
    (l₁ ++ l₂).takeWhile p = l₁.takeWhile p := by
  induction l₁ with
  | nil => simp at h
  | cons a l ih =>
    rcases h with ⟨x, hx, hpx⟩
    cases hpa : p a
    · simp [List.takeWhile_cons, hpa]
    · have hxl : x ∈ l := by
        rcases List.mem_cons.mp hx with rfl | hxl
        · rw [hpa] at hpx; cases hpx
        · exact hxl
      simp [List.takeWhile_cons, hpa, ih ⟨x, hxl, hpx⟩]

/-- Helper: the extension of a file name whose suffix contains a dot is the
extension of the suffix, whatever the prefix. -/
theorem extension_append (c a : String) (h : '.' ∈ a.data) :
    extension (c ++ a) = extension a := by
  unfold extension
  rw [String.data_append, List.reverse_append,
    takeWhile_append_stop _ _ _ ⟨'.', List.mem_reverse.mpr h, by decide⟩]

/-- The fetched structure's file name has extension `pdb`. -/
theorem extension_input_structure (cfg : Config) :
    extension (input_structure cfg) = "pdb" := by
  rw [input_structure, extension_append _ _ (by decide)]; decide

/-- The hydrogenated structure's file name has extension `mol2`. -/
theorem extension_output_babel_h (cfg : Config) :
    extension (output_babel_h cfg) = "mol2" := by
  rw [output_babel_h, extension_append _ _ (by decide)]; decide

/-- The minimized structure's file name has extension `pdb`. -/
theorem extension_output_babel_min (cfg : Config) :
    extension (output_babel_min cfg) = "pdb" := by
  rw [output_babel_min, extension_append _ _ (by decide)]; decide

/-- The fetch step writes a `pdb` file (no declared format; by extension). -/
theorem fmt_fetch_out (cfg : Config) : declaredOutputFormat (fetchCall cfg) = "pdb" := by
  simp [declaredOutputFormat, lookupProp, fetchCall, extension_input_structure]

/-- The hydrogen adder declares input format `pdb`. -/
theorem fmt_addH_in (cfg : Config) : declaredInputFormat (addHCall cfg) = "pdb" := by
  simp [declaredInputFormat, lookupProp, addHCall]

/-- The hydrogen adder declares output format `mol2`. -/
theorem fmt_addH_out (cfg : Config) : declaredOutputFormat (addHCall cfg) = "mol2" := by
  simp [declaredOutputFormat, lookupProp, addHCall]

/-- The minimizer declares no format; it infers `mol2` from its input path. -/
theorem fmt_min_in (cfg : Config) : declaredInputFormat (minimizeCall cfg) = "mol2" := by
  simp [declaredInputFormat, lookupProp, minimizeCall, extension_output_babel_h]

/-- The minimizer's output file has extension `pdb`. -/
theorem fmt_min_out (cfg : Config) : declaredOutputFormat (minimizeCall cfg) = "pdb" := by
  simp [declaredOutputFormat, lookupProp, minimizeCall, extension_output_babel_min]

/-- The GROMACS parameter generator infers `pdb` from its input path. -/
theorem fmt_gmx_in (cfg : Config) : declaredInputFormat (acpypeGmxCall cfg) = "pdb" := by
  simp [declaredInputFormat, lookupProp, acpypeGmxCall, extension_output_babel_min]

/-- The CNS parameter generator infers `pdb` from its input path. -/
theorem fmt_cns_in (cfg : Config) : declaredInputFormat (acpypeCnsCall cfg) = "pdb" := by
  simp [declaredInputFormat, lookupProp, acpypeCnsCall, extension_output_babel_min]

/-- Helper: the format-compatibility chain holds along any initial segment
of the four pipeline stages of either variant. -/
theorem chain_fmt_take (v : Variant) (cfg : Config) (j : Nat) (hj : j ≤ 4) :
    List.Chain' (fun a b => declaredOutputFormat a = declaredInputFormat b)
      ((chainOf v cfg).take j) := by
  interval_cases j <;> cases v <;>
    simp [chainOf, List.chain'_cons, fmt_fetch_out, fmt_addH_in, fmt_addH_out,
      fmt_min_in, fmt_min_out, fmt_gmx_in, fmt_cns_in]

end LigandParam

namespace LigandParam

/-- C7: adjacent pipeline stages agree on the chemical file format.  In
every run of either variant, along the pipeline-stage invocations (the
calls before the CNS copy statement) each stage's output format — its
declared `output_format` option, or else its output path's extension —
equals the next stage's declared or inferred input format; concretely the
fetcher writes `.pdb` and the hydrogen adder declares input format `pdb`,
the hydrogen adder declares output format `mol2` and writes a `.mol2` path
from which the minimizer infers `mol2`, and the minimizer writes a `.pdb`
path from which the parameter generator infers `pdb`. -/
theorem c7_stage_formats (v : Variant) (t : Tools) (cfg : Config) :
    List.Chain' (fun a b => declaredOutputFormat a = declaredInputFormat b)
      (((runOf v t cfg).state.calls).take 4) ∧
    declaredOutputFormat (fetchCall cfg) = "pdb" ∧
    declaredInputFormat (addHCall cfg) = "pdb" ∧
    declaredOutputFormat (addHCall cfg) = "mol2" ∧
    extension (output_babel_h cfg) = "mol2" ∧
    declaredInputFormat (minimizeCall cfg) = "mol2" ∧
    declaredOutputFormat (minimizeCall cfg) = "pdb" ∧
    extension (output_babel_min cfg) = "pdb" ∧
    declaredInputFormat (acpypeGmxCall cfg) = "pdb" ∧
    declaredInputFormat (acpypeCnsCall cfg) = "pdb" := by
  refine ⟨?_, fmt_fetch_out cfg, fmt_addH_in cfg, fmt_addH_out cfg,
    extension_output_babel_h cfg, fmt_min_in cfg, fmt_min_out cfg,
    extension_output_babel_min cfg, fmt_gmx_in cfg, fmt_cns_in cfg⟩
  obtain ⟨k, hcalls⟩ := run_calls_take v t cfg
  rw [hcalls, List.take_take]
  exact chain_fmt_take v cfg (min 4 k) (min_le_left 4 k)

end LigandParam

namespace LigandParam

/-- C8: the end-to-end GROMACS run with ligand code `IBP`, net charge `-1`
and pH `7.4`.  When every external tool succeeds with non-empty output, the
pipeline completes normally and creates exactly the files `IBP.pdb`,
`IBP.H.mol2`, `IBP.H.min.pdb`, `IBPparams.gro`, `IBPparams.itp`,
`IBPparams.top`, in that creation order, each non-empty. -/
theorem c8_ibp_end_to_end (t : Tools) (fc hc mc gro itp top : String)
    (hf : t.fetch "IBP" = some fc) (hf0 : fc ≠ "")
    (hh : t.addHydrogens fc (7.4 : Rat) "pdb" "mol2" = some hc) (hh0 : hc ≠ "")
    (hm : t.minimize hc "sd" "1e-10" "GAFF" = some mc) (hm0 : mc ≠ "")
    (ha : t.acpypeGmx mc "IBPparams" (-1 : Int) = some (gro, itp, top))
    (hg0 : gro ≠ "") (hi0 : itp ≠ "") (ht0 : top ≠ "") :
    ∃ s, runOf .gmx t cfgIBP = .ok s ∧
      s.trace = ["IBP.pdb", "IBP.H.mol2", "IBP.H.min.pdb",
        "IBPparams.gro", "IBPparams.itp", "IBPparams.top"] ∧
      ∀ p ∈ s.trace, ∃ content, readFile s p = some content ∧ content ≠ "" := by
  rcases ho : runOf .gmx t cfgIBP with s | ⟨m, s⟩
  · obtain ⟨fc', hc', mc', gro', itp', top', hf', hh', hm', ha', hcalls, htrace,
      h1, h2, h3, h4, h5, h6⟩ := run_ok_char_gmx t cfgIBP s ho
    simp only [cfgIBP, output_acpype] at hf' hh' hm' ha'
    simp only [show ("IBP" ++ "params" : String) = "IBPparams" from rfl] at ha'
    obtain rfl : fc = fc' := Option.some.inj (hf.symm.trans hf')
    obtain rfl : hc = hc' := Option.some.inj (hh.symm.trans hh')
    obtain rfl : mc = mc' := Option.some.inj (hm.symm.trans hm')
    obtain ⟨rfl, rfl, rfl⟩ : gro = gro' ∧ itp = itp' ∧ top = top' := by
      have := ha.symm.trans ha'
      simpa [Prod.ext_iff] using Option.some.inj this
    refine ⟨s, rfl, ?_, ?_⟩
    · rw [htrace]; rfl
    · intro p hp
      rw [htrace] at hp
      simp only [outputFiles, input_structure, output_babel_h, output_babel_min,
        output_acpype_gro, output_acpype_itp, output_acpype_top, cfgIBP,
        List.mem_cons, List.not_mem_nil, or_false] at hp
      rcases hp with rfl | rfl | rfl | rfl | rfl | rfl
      · exact ⟨fc, h1, hf0⟩
      · exact ⟨hc, h2, hh0⟩
      · exact ⟨mc, h3, hm0⟩
      · exact ⟨gro, h4, hg0⟩
      · exact ⟨itp, h5, hi0⟩
      · exact ⟨top, h6, ht0⟩
  · exfalso
    simp [runOf, Outcome.andThen, ligand, babel_add_hydrogens, babel_minimize,
      paramCell, acpype_params_gmx, cfgIBP, input_structure, output_babel_h,
      output_babel_min, output_acpype, hf, hh, hm, ha] at ho

/-- Witness for C8: the all-succeeding concrete toolchain. -/
theorem c8_ibp_end_to_end_witness :
    ∃ s, runOf .gmx toolsOK cfgIBP = .ok s ∧
      s.trace = ["IBP.pdb", "IBP.H.mol2", "IBP.H.min.pdb",
        "IBPparams.gro", "IBPparams.itp", "IBPparams.top"] ∧
      ∀ p ∈ s.trace, ∃ content, readFile s p = some content ∧ content ≠ "" :=
  c8_ibp_end_to_end toolsOK "PDB:IBP" "PDB:IBP+H" "PDB:IBP+H+min"
    "PDB:IBP+H+min|IBPparams.gro" "PDB:IBP+H+min|IBPparams.itp"
    "PDB:IBP+H+min|IBPparams.top"
    rfl (by decide) rfl (by decide) rfl (by decide) rfl
    (by decide) (by decide) (by decide)

end LigandParam

namespace LigandParam

/-- Helper: the notebook's step relation is functional — at every state at
most one successor exists, because each phase has one cell and the cell's
outcome on a given state is a fixed value. -/
theorem nbStep_det (v : Variant) (t : Tools) (cfg : Config) (a b c : NbState)
    (h1 : NbStep v t cfg a b) (h2 : NbStep v t cfg a c) : b = c := by
  cases h1 with
  | step_ok p s f s' hc1 hr1 =>
    cases h2 with
    | step_ok p2 s2 f2 s2' hc2 hr2 =>
      rw [hc1] at hc2
      obtain rfl : f = f2 := Option.some.inj hc2
      rw [hr1] at hr2
      obtain rfl : s' = s2' := (Outcome.ok.injEq _ _).mp hr2
      rfl
    | step_fail p2 s2 f2 m2 s2' hc2 hr2 =>
      rw [hc1] at hc2
      obtain rfl : f = f2 := Option.some.inj hc2
      rw [hr1] at hr2
      cases hr2
  | step_fail p s f m s' hc1 hr1 =>
    cases h2 with
    | step_ok p2 s2 f2 s2' hc2 hr2 =>
      rw [hc1] at hc2
      obtain rfl : f = f2 := Option.some.inj hc2
      rw [hr1] at hr2
      cases hr2
    | step_fail p2 s2 f2 m2 s2' hc2 hr2 =>
      rw [hc1] at hc2
      obtain rfl : f = f2 := Option.some.inj hc2
      rw [hr1] at hr2
      obtain ⟨rfl, rfl⟩ := (Outcome.failed.injEq _ _ _ _).mp hr2
      rfl

/-- Helper: a terminal notebook state has no successor. -/
theorem terminal_no_step (v : Variant) (t : Tools) (cfg : Config) (a b : NbState)
    (ht : TerminalNb a) : ¬ NbStep v t cfg a b := by
  intro h
  cases h with
  | step_ok p s f s' hc _ =>
    rcases ht with hp | hp <;> (simp only [] at hp; rw [show p = _ from hp] at hc; simp [cellOf] at hc)
  | step_fail p s f m s' hc _ =>
    rcases ht with hp | hp <;> (simp only [] at hp; rw [show p = _ from hp] at hc; simp [cellOf] at hc)

/-- Helper: nothing is reachable from a terminal state but itself. -/
theorem terminal_reaches (v : Variant) (t : Tools) (cfg : Config) (b c : NbState)
    (hb : TerminalNb b) (h : Relation.ReflTransGen (NbStep v t cfg) b c) : c = b := by
  rcases h.cases_head with rfl | ⟨d, hd, _⟩
  · rfl
  · exact absurd hd (terminal_no_step v t cfg b d hb)

/-- Helper: from one start state, all terminal reachable states coincide. -/
theorem reaches_terminal_unique (v : Variant) (t : Tools) (cfg : Config)
    (a b c : NbState)
    (hab : Relation.ReflTransGen (NbStep v t cfg) a b) (hb : TerminalNb b)
    (hac : Relation.ReflTransGen (NbStep v t cfg) a c) (hc : TerminalNb c) :
    b = c := by
  induction hab using Relation.ReflTransGen.head_induction_on with
  | refl => exact (terminal_reaches v t cfg b c hb hac).symm
  | head hstep htail ih =>
    rename_i x y
    rcases hac.cases_head with rfl | ⟨d, hd, hdc⟩
    · exact absurd hstep (terminal_no_step v t cfg x y hc)
    · obtain rfl : y = d := nbStep_det v t cfg x y d hstep hd
      exact ih hdc

end LigandParam

namespace LigandParam

/-- C9: the orchestration is deterministic.  With the external tools
modelled as deterministic functions, any two notebook executions of the
same variant from the same input parameters that run to a terminal state
(finished or halted) end in the same state — in particular the working
directory is identical file by file, so the output topology files are
byte-identical. -/
theorem c9_deterministic_runs (v : Variant) (t : Tools) (cfg : Config)
    (n1 n2 : NbState)
    (h1 : Relation.ReflTransGen (NbStep v t cfg) ⟨.start, initialState⟩ n1)
    (ht1 : TerminalNb n1)
    (h2 : Relation.ReflTransGen (NbStep v t cfg) ⟨.start, initialState⟩ n2)
    (ht2 : TerminalNb n2) :
    n1 = n2 ∧ ∀ p, readFile n1.st p = readFile n2.st p := by
  have h := reaches_terminal_unique v t cfg ⟨.start, initialState⟩ n1 n2 h1 ht1 h2 ht2
  exact ⟨h, fun p => by rw [h]⟩

/-- Witness for C9: the concrete GROMACS run on the all-succeeding
toolchain, executed step by step to the finished state. -/
theorem c9_deterministic_runs_witness :
    (NbState.mk .finished nbS4 = NbState.mk .finished nbS4) ∧
    ∀ p, readFile (NbState.mk .finished nbS4).st p =
      readFile (NbState.mk .finished nbS4).st p :=
  c9_deterministic_runs .gmx toolsOK cfgIBP ⟨.finished, nbS4⟩ ⟨.finished, nbS4⟩
    (Relation.ReflTransGen.head
      (NbStep.step_ok .start initialState (ligand toolsOK cfgIBP) nbS1 rfl rfl)
      (Relation.ReflTransGen.head
        (NbStep.step_ok .fetched nbS1 (babel_add_hydrogens toolsOK cfgIBP) nbS2 rfl rfl)
        (Relation.ReflTransGen.head
          (NbStep.step_ok .hydrogenated nbS2 (babel_minimize toolsOK cfgIBP) nbS3 rfl rfl)
          (Relation.ReflTransGen.head
            (NbStep.step_ok .minimized nbS3 (paramCell .gmx toolsOK cfgIBP) nbS4 rfl rfl)
            Relation.ReflTransGen.refl))))
    (Or.inl rfl)
    (Relation.ReflTransGen.head
      (NbStep.step_ok .start initialState (ligand toolsOK cfgIBP) nbS1 rfl rfl)
      (Relation.ReflTransGen.head
        (NbStep.step_ok .fetched nbS1 (babel_add_hydrogens toolsOK cfgIBP) nbS2 rfl rfl)
        (Relation.ReflTransGen.head
          (NbStep.step_ok .hydrogenated nbS2 (babel_minimize toolsOK cfgIBP) nbS3 rfl rfl)
          (Relation.ReflTransGen.head
            (NbStep.step_ok .minimized nbS3 (paramCell .gmx toolsOK cfgIBP) nbS4 rfl rfl)
            Relation.ReflTransGen.refl))))
    (Or.inl rfl)

end LigandParam
